import Mathlib

/-!
# Verification of gdrive-stash against its specification

This file gives a shallow embedding of `gdrive-stash.py`, a script that backs
up a local directory tree into Google Drive by shelling out to the `gdrive`
CLI.  External effects (the local filesystem, the `gdrive` binary's stdout,
subprocess spawning) are modelled by oracle structures and an explicit event
trace; `sys.exit` and uncaught Python exceptions are modelled by an `Except`
error monad.  Each definition mirrors the corresponding Python function of the
source file.
-/

set_option maxRecDepth 8192

namespace GdriveStash

/-! ## String primitives

Python's `str.split(sep)`, `str.strip()` and `str.strip("/")`, implemented by
structural recursion over character lists so that all definitions reduce in
the kernel.
-/

/-- If `sep` is a prefix of `l`, return the remainder of `l`; otherwise `none`. -/
def dropPrefixQ : List Char → List Char → Option (List Char)
  | [], l => some l
  | _ :: _, [] => none
  | s :: ss, c :: cs => if c = s then dropPrefixQ ss cs else none

/-- Worker for `pySplit`: fuel-indexed scan accumulating the current field in
reverse.  The fuel is always at least `length + 1` at the call site, and each
step consumes at least one character, so the fuel-0 fallback is unreachable. -/
def splitOnGo (sep : List Char) : Nat → List Char → List Char → List (List Char)
  | 0, acc, rest => [acc.reverse ++ rest]
  | fuel + 1, acc, rest =>
    match dropPrefixQ sep rest with
    | some rest' => acc.reverse :: splitOnGo sep fuel [] rest'
    | none =>
      match rest with
      | [] => [acc.reverse]
      | c :: cs => splitOnGo sep fuel (c :: acc) cs

/-- Python `s.split(sep)` for a nonempty separator `sep`. -/
def pySplit (sep : String) (s : String) : List String :=
  (splitOnGo sep.toList (s.toList.length + 1) [] s.toList).map fun cs => String.mk cs

/-- Whitespace characters stripped by Python's `str.strip()`. -/
def isPyWS (c : Char) : Bool :=
  c = ' ' ∨ c = '\t' ∨ c = '\n' ∨ c = '\r' ∨ c = '\x0b' ∨ c = '\x0c'

/-- Python `s.strip()`: remove leading and trailing whitespace. -/
def pyStrip (s : String) : String :=
  String.mk (((s.toList.dropWhile isPyWS).reverse.dropWhile isPyWS).reverse)

/-- Python `s.strip("/")`: remove leading and trailing forward slashes. -/
def stripSlashes (s : String) : String :=
  String.mk (((s.toList.dropWhile fun c => c = '/').reverse.dropWhile fun c => c = '/').reverse)

/-- `check_output(...).decode().strip().split("\n")`: the line list produced
from the raw stdout of a `gdrive files list` invocation. -/
def linesOf (raw : String) : List String := pySplit "\n" (pyStrip raw)

/-! ## Timestamps

`datetime.strptime(s, "%Y-%m-%d %H:%M:%S")` followed by `.astimezone()`.
Aware datetimes are compared by their instant, which we represent as an
integer number of seconds since the Unix epoch.
-/

/-- A parsed naive datetime. -/
structure Timestamp where
  year : Nat
  month : Nat
  day : Nat
  hour : Nat
  minute : Nat
  second : Nat
deriving DecidableEq, Repr

/-- Read one or two decimal digits greedily (as `strptime`'s numeric fields do). -/
def readNum2 : List Char → Option (Nat × List Char)
  | c1 :: c2 :: rest =>
    if c1.isDigit then
      if c2.isDigit then some ((c1.toNat - 48) * 10 + (c2.toNat - 48), rest)
      else some (c1.toNat - 48, c2 :: rest)
    else none
  | [c1] => if c1.isDigit then some (c1.toNat - 48, []) else none
  | [] => none

/-- Read exactly four decimal digits (`strptime`'s `%Y` directive). -/
def readYear4 : List Char → Option (Nat × List Char)
  | a :: b :: c :: d :: rest =>
    if a.isDigit ∧ b.isDigit ∧ c.isDigit ∧ d.isDigit then
      some ((((a.toNat - 48) * 10 + (b.toNat - 48)) * 10 + (c.toNat - 48)) * 10
        + (d.toNat - 48), rest)
    else none
  | _ => none

/-- Expect a literal character. -/
def expectChar (c : Char) : List Char → Option (List Char)
  | x :: rest => if x = c then some rest else none
  | [] => none

def isLeap (y : Nat) : Bool := y % 4 = 0 ∧ (y % 100 ≠ 0 ∨ y % 400 = 0)

def daysInMonth (y m : Nat) : Nat :=
  if m = 2 then (if isLeap y then 29 else 28)
  else if m = 4 ∨ m = 6 ∨ m = 9 ∨ m = 11 then 30
  else 31

/-- `datetime.strptime(s, "%Y-%m-%d %H:%M:%S")`.  Returns `none` exactly when
Python would raise `ValueError`: wrong shape, out-of-range field, or trailing
unconverted data. -/
def strptimeYmdHms (s : String) : Option Timestamp := do
  let (y, r1) ← readYear4 s.toList
  let r2 ← expectChar '-' r1
  let (m, r3) ← readNum2 r2
  let r4 ← expectChar '-' r3
  let (d, r5) ← readNum2 r4
  let r6 ← expectChar ' ' r5
  let (h, r7) ← readNum2 r6
  let r8 ← expectChar ':' r7
  let (mi, r9) ← readNum2 r8
  let r10 ← expectChar ':' r9
  let (sec, r11) ← readNum2 r10
  if r11 = [] ∧ 1 ≤ y ∧ 1 ≤ m ∧ m ≤ 12 ∧ 1 ≤ d ∧ d ≤ daysInMonth y m
      ∧ h ≤ 23 ∧ mi ≤ 59 ∧ sec ≤ 59 then
    some ⟨y, m, d, h, mi, sec⟩
  else none

/-- Days since 1970-01-01 of a Gregorian civil date with `1 ≤ y`. -/
def daysFromCivil (y m d : Nat) : Int :=
  let yAdj : Int := if m ≤ 2 then (y : Int) - 1 else (y : Int)
  let era : Int := yAdj / 400
  let yoe : Int := yAdj - era * 400
  let mp : Int := if m ≤ 2 then (m : Int) + 9 else (m : Int) - 3
  let doy : Int := (153 * mp + 2) / 5 + (d : Int) - 1
  let doe : Int := yoe * 365 + yoe / 4 - yoe / 100 + doy
  era * 146097 + doe - 719468

/-- Seconds since the Unix epoch of a timestamp read as a UTC wall clock. -/
def tsEpoch (ts : Timestamp) : Int :=
  86400 * daysFromCivil ts.year ts.month ts.day
    + 3600 * (ts.hour : Int) + 60 * (ts.minute : Int) + (ts.second : Int)

/-- The instant denoted by a naive timestamp interpreted in the machine's
local timezone (`astimezone()`), where `tz` is the local UTC offset in
seconds. -/
def instantOf (tz : Int) (ts : Timestamp) : Int := tsEpoch ts - tz

/-! ## Data model: file types, subprocesses, events, errors, oracles -/

/-- `class FileType(Enum)` of the source. -/
inductive FileType
  | DIR
  | FILE
deriving DecidableEq, Repr

/-- An asynchronous subprocess spawned with `subprocess.Popen`: either a
`gdrive files upload` (with optional `--parent`) or a `gdrive files delete`. -/
inductive Proc
  | upload (parent : Option String) (path : String)
  | delete (id : String)
deriving DecidableEq, Repr

/-- The `--parent` argument a spawned subprocess was invoked with. -/
def procParent : Proc → Option String
  | .upload parent _ => parent
  | .delete _ => none

/-- One observable interaction with the external world:
a synchronous `gdrive files list` (of the root or of a directory id),
a synchronous `gdrive files mkdir`, or a `subprocess.Popen` spawn. -/
inductive Event
  | listRoot
  | listDir (id : String)
  | mkdir (parent : Option String) (name : String)
  | spawn (p : Option Proc)
deriving DecidableEq, Repr

/-- The spawn events of a trace, in order. -/
def spawnsOf (evs : List Event) : List (Option Proc) :=
  evs.filterMap fun e =>
    match e with
    | .spawn p => some p
    | _ => none

/-- How a run of the script can abort: `sys.exit(msg)`, an uncaught Python
exception, or exhaustion of the recursion fuel of the embedding. -/
inductive PErr
  | exit (msg : String)
  | raise
  | fuel
deriving DecidableEq, Repr

/-- Oracle for the external world seen through subprocess stdout:
`execPath` models `which`/`where` lookup, `rootListRaw` and `listDirRaw`
the raw stdout of `gdrive files list` (with `listDirRaw id = none` when the
process exits nonzero, i.e. `CalledProcessError`), and `mkdirRaw` the raw
stdout of `gdrive files mkdir --print-only-id`. -/
structure Env where
  execPath : String → Option String
  rootListRaw : String
  listDirRaw : String → Option String
  mkdirRaw : Option String → String → String
  tzOff : Int

/-- Oracle for the local filesystem: `os.listdir` (with `none` for
`FileNotFoundError`), `Path.is_dir()`, and `os.path.getmtime` as an epoch
instant. -/
structure LocalFS where
  listdir : String → Option (List String)
  isDir : String → Bool
  mtime : String → Int

/-! ## Embedding of the source functions -/

/-- `get_exec_path(name)`: locate an executable on PATH, or
`sys.exit` with a diagnostic. -/
def get_exec_path (env : Env) (name : String) : Except PErr String :=
  match env.execPath name with
  | some p => .ok p
  | none =>
    .error (.exit ("Error: executable " ++ name ++ " not found.\nPlease verify "
      ++ name ++ " is installed and on PATH."))

/-- `get_local_files(src_dir)`: `os.listdir`, exiting when the directory does
not exist. -/
def get_local_files (fs : LocalFS) (src_dir : String) : Except PErr (List String) :=
  match fs.listdir src_dir with
  | some files => .ok files
  | none => .error (.exit ("Error: directory " ++ src_dir ++ " does not exist"))

/-- `get_drive_file_list(dest_id)`: list a Drive directory (the root when
`dest_id` is `none`), exiting when the id cannot be listed. -/
def get_drive_file_list (env : Env) (dest_id : Option String) :
    Except PErr (List String × List Event) :=
  match get_exec_path env "gdrive" with
  | .error e => .error e
  | .ok _ =>
    match dest_id with
    | none => .ok (linesOf env.rootListRaw, [Event.listRoot])
    | some id =>
      match env.listDirRaw id with
      | some raw => .ok (linesOf raw, [Event.listDir id])
      | none => .error (.exit ("Error: directory with ID " ++ id ++ " not found"))

/-- The field separator used by the script when invoking `gdrive files list`. -/
def delim : String := ":DELIMITER?"

/-- The per-line loop of `get_drive_file_info`: split each line on the
delimiter, index fields 1 and 2 unguarded, and on a name/type match parse
field 4 as a timestamp and return field 0 with the parsed instant.
`.error .raise` models an uncaught `IndexError` or `ValueError`. -/
def goInfo (tz : Int) (filename : String) (file_type : FileType) :
    List String → Except PErr (Option String × Option Int)
  | [] => .ok (none, none)
  | line :: rest =>
    match (pySplit delim line)[1]? with
    | none => .error .raise
    | some drive_name =>
      match (pySplit delim line)[2]? with
      | none => .error .raise
      | some drive_type =>
        if drive_name = filename ∧
            ((file_type = FileType.DIR ∧ drive_type = "folder") ∨
             (file_type = FileType.FILE ∧ drive_type ≠ "folder")) then
          match (pySplit delim line)[4]? with
          | none => .error .raise
          | some tstr =>
            match strptimeYmdHms tstr with
            | none => .error .raise
            | some ts =>
              match (pySplit delim line)[0]? with
              | none => .error .raise
              | some fid => .ok (some fid, some (instantOf tz ts))
        else goInfo tz filename file_type rest

/-- `get_drive_file_info(filename, file_type, drive_files)`. -/
def get_drive_file_info (tz : Int) (filename : String) (file_type : FileType)
    (drive_files : List String) : Except PErr (Option String × Option Int) :=
  if drive_files = [""] then .ok (none, none)
  else goInfo tz filename file_type drive_files

/-- The loop state of `resolve_drive_dir_id`: the Python locals
`curr_dir_id`, `previous_dir_id` and `curr_file_list`. -/
structure RState where
  curr : Option String
  prev : Option String
  files : List String
deriving DecidableEq, Repr

/-- The `for curr_dir in dirs_in_path` loop of `resolve_drive_dir_id`. -/
def resolveLoop (env : Env) (dest_dir : String) (make_parents : Bool) :
    RState → List String → Except PErr (RState × List Event)
  | st, [] => .ok (st, [])
  | st, curr_dir :: rest =>
    match get_drive_file_info env.tzOff curr_dir FileType.DIR st.files with
    | .error e => .error e
    | .ok (cid, _) =>
      match cid with
      | some id =>
        match env.listDirRaw id with
        | none => .error .raise
        | some raw =>
          match resolveLoop env dest_dir make_parents ⟨some id, some id, linesOf raw⟩ rest with
          | .error e => .error e
          | .ok (st', ev) => .ok (st', Event.listDir id :: ev)
      | none =>
        if make_parents then
          let newId := pyStrip (env.mkdirRaw st.prev curr_dir)
          match resolveLoop env dest_dir make_parents ⟨some newId, some newId, [""]⟩ rest with
          | .error e => .error e
          | .ok (st', ev) => .ok (st', Event.mkdir st.prev curr_dir :: ev)
        else
          .error (.exit ("Error: destination " ++ dest_dir
            ++ " is not a directory (case-sensitive)\nUse option \"-p\" to recursively create parent dirs"))

/-- `dest_dir.strip("/").split("/")`. -/
def pathComponents (dest_dir : String) : List String :=
  pySplit "/" (stripSlashes dest_dir)

/-- `resolve_drive_dir_id(dest_dir, make_parents)`. -/
def resolve_drive_dir_id (env : Env) (dest_dir : String) (make_parents : Bool) :
    Except PErr ((Option String × List String) × List Event) :=
  match get_exec_path env "gdrive" with
  | .error e => .error e
  | .ok _ =>
    let curr_file_list := linesOf env.rootListRaw
    let dirs_in_path := pathComponents dest_dir
    if dirs_in_path = [""] then .ok ((none, curr_file_list), [Event.listRoot])
    else
      match resolveLoop env dest_dir make_parents ⟨none, none, curr_file_list⟩ dirs_in_path with
      | .error e => .error e
      | .ok (st, ev) => .ok ((st.curr, st.files), Event.listRoot :: ev)

/-- `back_up_file(src_dir, filename, dest_id, file_id, drive_file_create_time)`.
Returns the `procs` list (of declared element type `Popen | None`) together
with the event trace of the call. -/
def back_up_file (env : Env) (fs : LocalFS) (src_dir filename : String)
    (dest_id : Option String) (file_id : Option String)
    (drive_file_create_time : Option Int) :
    Except PErr (List (Option Proc) × List Event) :=
  if filename = ".DS_Store" then .ok ([], [])
  else
    match get_exec_path env "gdrive" with
    | .error e => .error e
    | .ok _ =>
      let uploadProc := Proc.upload dest_id (src_dir ++ "/" ++ filename)
      match file_id with
      | none => .ok ([some uploadProc], [Event.spawn (some uploadProc)])
      | some fid =>
        let last_write := fs.mtime (src_dir ++ "/" ++ filename)
        match drive_file_create_time with
        | none => .error .raise
        | some ct =>
          if last_write > ct then
            .ok ([some (Proc.delete fid), some uploadProc],
              [Event.spawn (some (Proc.delete fid)), Event.spawn (some uploadProc)])
          else .ok ([], [])

/-- Sequence two results, concatenating process lists and event traces
(mirroring `procs += new_procs` after the spawning call). -/
def combineRes (a b : Except PErr (List (Option Proc) × List Event)) :
    Except PErr (List (Option Proc) × List Event) :=
  match a with
  | .error e => .error e
  | .ok (ps, ev) =>
    match b with
    | .error e => .error e
    | .ok (ps', ev') => .ok (ps ++ ps', ev ++ ev')

/-- Record a synchronous event in front of a result's trace. -/
def withEvent (e : Event) (a : Except PErr (List (Option Proc) × List Event)) :
    Except PErr (List (Option Proc) × List Event) :=
  match a with
  | .error err => .error err
  | .ok (ps, ev) => .ok (ps, e :: ev)

/-- `get_file_type(src_dir, filename)`: `FileType.DIR` for a directory,
otherwise `FileType.FILE`. -/
def get_file_type (fs : LocalFS) (src_dir filename : String) : FileType :=
  if fs.isDir (src_dir ++ "/" ++ filename) then FileType.DIR else FileType.FILE

/-- The destination-resolution step of `back_up_dir`: a given id is listed
directly (exiting when it cannot be listed); a path is resolved through
`resolve_drive_dir_id`. -/
def resolveDest (env : Env) (dest_dir : String) (make_parents dest_dir_is_id : Bool) :
    Except PErr ((Option String × List String) × List Event) :=
  if dest_dir_is_id then
    match get_drive_file_list env (some dest_dir) with
    | .error e => .error e
    | .ok (fls, ev) => .ok ((some dest_dir, fls), ev)
  else resolve_drive_dir_id env dest_dir make_parents

/-- The `for filename in src_files` loop of `back_up_dir`.  `recur` is the
recursive `back_up_dir` call made for subdirectories. -/
def backUpEach (env : Env) (fs : LocalFS) (src_dir : String)
    (dest_id : Option String) (dest_files : List String)
    (recursive make_parents : Bool)
    (recur : String → String → Except PErr (List (Option Proc) × List Event)) :
    List String → Except PErr (List (Option Proc) × List Event)
  | [] => .ok ([], [])
  | filename :: rest =>
    match get_drive_file_info env.tzOff filename (get_file_type fs src_dir filename)
        dest_files with
    | .error e => .error e
    | .ok (file_id, drive_file_create_time) =>
      if get_file_type fs src_dir filename = FileType.DIR ∧ recursive then
        match file_id with
        | some fid =>
          combineRes (recur (src_dir ++ "/" ++ filename) fid)
            (backUpEach env fs src_dir dest_id dest_files recursive make_parents recur rest)
        | none =>
          match get_exec_path env "gdrive" with
          | .error e => .error e
          | .ok _ =>
            combineRes
              (withEvent (Event.mkdir dest_id filename)
                (recur (src_dir ++ "/" ++ filename)
                  (pyStrip (env.mkdirRaw dest_id filename))))
              (backUpEach env fs src_dir dest_id dest_files recursive make_parents recur rest)
      else if get_file_type fs src_dir filename = FileType.FILE then
        combineRes
          (back_up_file env fs src_dir filename dest_id file_id drive_file_create_time)
          (backUpEach env fs src_dir dest_id dest_files recursive make_parents recur rest)
      else
        backUpEach env fs src_dir dest_id dest_files recursive make_parents recur rest

/-- `back_up_dir(src_dir, dest_dir, recursive, make_parents, dest_dir_is_id)`,
with a fuel parameter bounding the recursion depth of the embedding. -/
def back_up_dir (env : Env) (fs : LocalFS) :
    Nat → String → String → Bool → Bool → Bool →
    Except PErr (List (Option Proc) × List Event)
  | 0, _, _, _, _, _ => .error .fuel
  | fuel + 1, src_dir, dest_dir, recursive, make_parents, dest_dir_is_id =>
    match get_local_files fs src_dir with
    | .error e => .error e
    | .ok src_files =>
      match resolveDest env dest_dir make_parents dest_dir_is_id with
      | .error e => .error e
      | .ok ((dest_id, dest_files), ev0) =>
        match backUpEach env fs src_dir dest_id dest_files recursive make_parents
            (fun ns nd => back_up_dir env fs fuel ns nd true make_parents true)
            src_files with
        | .error e => .error e
        | .ok (procs, ev) => .ok (procs, ev0 ++ ev)

/-- The final `for proc in procs: proc.wait()` loop of the script.  Waiting on
a `None` element would raise `AttributeError`. -/
def waitLoop : List (Option Proc) → Except PErr (List Proc)
  | [] => .ok []
  | none :: _ => .error .raise
  | some p :: rest =>
    match waitLoop rest with
    | .error e => .error e
    | .ok ps => .ok (p :: ps)

/-- The top-level script: run `back_up_dir` on the parsed arguments, then wait
on every collected process. -/
def script (env : Env) (fs : LocalFS) (fuel : Nat) (src_dir dest_dir : String)
    (recursive make_parents dest_dir_is_id : Bool) : Except PErr (List Proc) :=
  match back_up_dir env fs fuel src_dir dest_dir recursive make_parents dest_dir_is_id with
  | .error e => .error e
  | .ok (procs, _) => waitLoop procs

/-! ## Specification-side definitions

These follow the wording of the specification (not the code) and are used to
state the claims as refinements of the code-derived definitions above.
-/

/-- Modelled from the spec: a remote entry matches a local file when its name
field equals the filename exactly and its type field is `"folder"` for a local
directory, or anything other than `"folder"` for a local non-directory file. -/
def entryMatches (filename : String) (file_type : FileType) (line : String) : Bool :=
  let fi := pySplit delim line
  match fi[1]?, fi[2]? with
  | some nm, some ty =>
    nm == filename && (if file_type = FileType.DIR then ty == "folder" else ty != "folder")
  | _, _ => false

/-- The Google Drive ID field (field 0) of a listing line. -/
def entryIdOpt (line : String) : Option String := (pySplit delim line)[0]?

/-- The creation instant parsed from field 4 of a listing line. -/
def entryCtimeOpt (tz : Int) (line : String) : Option Int :=
  (((pySplit delim line)[4]?).bind strptimeYmdHms).map (instantOf tz)

/-- Modelled from the spec: the id and creation time of the first entry
matching the local file by name and type, and `(none, none)` for the
empty-directory marker or when no entry matches. -/
def specInfo (tz : Int) (filename : String) (file_type : FileType)
    (dfs : List String) : Option String × Option Int :=
  if dfs = [""] then (none, none)
  else
    match dfs.find? (entryMatches filename file_type) with
    | none => (none, none)
    | some line => (entryIdOpt line, entryCtimeOpt tz line)

/-- Modelled from the spec: with `make_parents` enabled, resolve the
slash-separated path components in order; a component with a matching remote
directory continues the walk at that directory's id and listing, and a
component with no match is created with the external client's mkdir
subcommand — as a child of the previously resolved component's id, or with no
parent for the first component — continuing the walk at the new id with the
empty-directory marker as its listing. -/
def resolveSpecWalk (env : Env) :
    Option String → List String → List String →
    Except PErr ((Option String × List String) × List Event)
  | parent, files, [] => .ok ((parent, files), [])
  | parent, files, c :: rest =>
    match get_drive_file_info env.tzOff c FileType.DIR files with
    | .error e => .error e
    | .ok (some id, _) =>
      match env.listDirRaw id with
      | none => .error .raise
      | some raw =>
        match resolveSpecWalk env (some id) (linesOf raw) rest with
        | .error e => .error e
        | .ok (res, ev) => .ok (res, Event.listDir id :: ev)
    | .ok (none, _) =>
      let newId := pyStrip (env.mkdirRaw parent c)
      match resolveSpecWalk env (some newId) [""] rest with
      | .error e => .error e
      | .ok (res, ev) => .ok (res, Event.mkdir parent c :: ev)

/-- Well-formedness of a drive listing relative to a search: every line splits
into at least five fields, and field 4 of any matching line parses in the
timestamp format. -/
def wellFormedListing (filename : String) (file_type : FileType)
    (dfs : List String) : Prop :=
  ∀ line ∈ dfs, 5 ≤ (pySplit delim line).length ∧
    (entryMatches filename file_type line = true →
      (((pySplit delim line)[4]?).bind strptimeYmdHms).isSome = true)

/-- The invariant relating a returned process list to the event trace: the
list is exactly the spawned processes in order, and no element is `None`. -/
def ProcInv (ps : List (Option Proc)) (ev : List Event) : Prop :=
  spawnsOf ev = ps ∧ ∀ x ∈ ps, ∃ p, x = some p

/-! ## Concrete worlds used by the witnesses -/

/-- A sample listing: a folder `docs` and a regular file `a.txt`. -/
def dfsW : List String :=
  ["rid1:DELIMITER?docs:DELIMITER?folder:DELIMITER?:DELIMITER?2024-01-02 03:04:05",
   "fid1:DELIMITER?a.txt:DELIMITER?regular:DELIMITER?10:DELIMITER?2024-01-02 03:04:05"]

/-- A healthy world: `gdrive` on PATH, the root holding `dfsW`, every
directory listing empty, every mkdir printing `newid`. -/
def envW : Env where
  execPath := fun _ => some "/usr/bin/gdrive"
  rootListRaw := "rid1:DELIMITER?docs:DELIMITER?folder:DELIMITER?:DELIMITER?2024-01-02 03:04:05\nfid1:DELIMITER?a.txt:DELIMITER?regular:DELIMITER?10:DELIMITER?2024-01-02 03:04:05"
  listDirRaw := fun _ => some ""
  mkdirRaw := fun _ _ => "newid\n"
  tzOff := 0

/-- A local tree: `src` holds a file `a.txt` and a subdirectory `docs`. -/
def fsW : LocalFS where
  listdir := fun p => if p = "src" then some ["a.txt", "docs"] else some []
  isDir := fun p => p = "src/docs" ∨ p = "src"
  mtime := fun _ => 1704164646

/-- A world where no executable is on PATH. -/
def envX : Env where
  execPath := fun _ => none
  rootListRaw := ""
  listDirRaw := fun _ => some ""
  mkdirRaw := fun _ _ => "x"
  tzOff := 0

/-- A world where listing any directory id fails (`CalledProcessError`). -/
def envL : Env where
  execPath := fun _ => some "/usr/bin/gdrive"
  rootListRaw := ""
  listDirRaw := fun _ => none
  mkdirRaw := fun _ _ => "x"
  tzOff := 0

/-- A local filesystem with no directories at all (`FileNotFoundError`). -/
def fsN : LocalFS where
  listdir := fun _ => none
  isDir := fun _ => false
  mtime := fun _ => 0

/-- A stub recursion continuation used to instantiate `backUpEach` lemmas. -/
def recurW : String → String → Except PErr (List (Option Proc) × List Event) :=
  fun _ _ => .ok ([], [])

/-! ## Theorems -/

/-- C1 counterexample: the claim quantifies over every local non-directory
file, but for the reserved filename `.DS_Store` with no matching remote entry
(`file_id = none`) `back_up_file` spawns no upload subprocess at all. -/
theorem claim1_counterexample :
    back_up_file envW fsW "src" ".DS_Store" (some "d9") none none = .ok ([], []) := rfl

/-- C1 (amended: for every local non-directory file other than the reserved
name `.DS_Store`, and provided the `gdrive` executable is found on PATH):
with no matching remote entry `back_up_file` spawns exactly one upload
subprocess; with a matching remote entry it spawns a delete followed by a
re-upload exactly when the local modification time strictly exceeds the
remote creation time, the delete preceding the upload in the returned list,
and otherwise spawns nothing. -/
theorem claim1_back_up_file_cases (env : Env) (fs : LocalFS)
    (src_dir filename : String) (dest_id : Option String) (gp : String)
    (hname : filename ≠ ".DS_Store") (hgd : env.execPath "gdrive" = some gp) :
    (∀ ct, back_up_file env fs src_dir filename dest_id none ct =
      .ok ([some (Proc.upload dest_id (src_dir ++ "/" ++ filename))],
        [Event.spawn (some (Proc.upload dest_id (src_dir ++ "/" ++ filename)))])) ∧
    (∀ fid ct, fs.mtime (src_dir ++ "/" ++ filename) > ct →
      back_up_file env fs src_dir filename dest_id (some fid) (some ct) =
        .ok ([some (Proc.delete fid),
              some (Proc.upload dest_id (src_dir ++ "/" ++ filename))],
          [Event.spawn (some (Proc.delete fid)),
           Event.spawn (some (Proc.upload dest_id (src_dir ++ "/" ++ filename)))])) ∧
    (∀ fid ct, ¬ fs.mtime (src_dir ++ "/" ++ filename) > ct →
      back_up_file env fs src_dir filename dest_id (some fid) (some ct) =
        .ok ([], [])) := by
  refine ⟨fun ct => ?_, fun fid ct h => ?_, fun fid ct h => ?_⟩
  · simp [back_up_file, get_exec_path, hname, hgd]
  · simp [back_up_file, get_exec_path, hname, hgd, h]
  · simp [back_up_file, get_exec_path, hname, hgd, h]

/-- C1 witness: the three cases of the amended claim at a concrete world. -/
theorem claim1_witness :
    back_up_file envW fsW "src" "b.txt" (some "d9") none none =
      .ok ([some (Proc.upload (some "d9") "src/b.txt")],
        [Event.spawn (some (Proc.upload (some "d9") "src/b.txt"))]) ∧
    back_up_file envW fsW "src" "b.txt" (some "d9") (some "f9") (some 5) =
      .ok ([some (Proc.delete "f9"), some (Proc.upload (some "d9") "src/b.txt")],
        [Event.spawn (some (Proc.delete "f9")),
         Event.spawn (some (Proc.upload (some "d9") "src/b.txt"))]) ∧
    back_up_file envW fsW "src" "b.txt" (some "d9") (some "f9") (some 2000000000) =
      .ok ([], []) :=
  ⟨(claim1_back_up_file_cases envW fsW "src" "b.txt" (some "d9") "/usr/bin/gdrive"
      (by decide) rfl).1 none,
   (claim1_back_up_file_cases envW fsW "src" "b.txt" (some "d9") "/usr/bin/gdrive"
      (by decide) rfl).2.1 "f9" 5 (by decide),
   (claim1_back_up_file_cases envW fsW "src" "b.txt" (some "d9") "/usr/bin/gdrive"
      (by decide) rfl).2.2 "f9" 2000000000 (by decide)⟩

/-- C7: for every world, source directory, destination id, remote file id and
creation time, `back_up_file` on the reserved filename `.DS_Store` returns the
empty process list and records no event, so such a file is never uploaded,
deleted, or replaced remotely. -/
theorem claim7_ds_store_skipped (env : Env) (fs : LocalFS) (src_dir : String)
    (dest_id : Option String) (file_id : Option String) (ct : Option Int) :
    back_up_file env fs src_dir ".DS_Store" dest_id file_id ct = .ok ([], []) := by
  simp [back_up_file]

/-- The code's match condition agrees with the spec-side matcher on any line
whose fields 1 and 2 exist. -/
lemma entryMatches_iff (filename : String) (ft : FileType) (line nm ty : String)
    (h1 : (pySplit delim line)[1]? = some nm)
    (h2 : (pySplit delim line)[2]? = some ty) :
    entryMatches filename ft line = true ↔
      (nm = filename ∧ ((ft = FileType.DIR ∧ ty = "folder") ∨
        (ft = FileType.FILE ∧ ty ≠ "folder"))) := by
  cases ft <;> simp [entryMatches, h1, h2]

/-- The per-line search loop, when it returns, returns the id and parsed
creation time of the first matching entry, and `(none, none)` otherwise. -/
lemma goInfo_ok_eq (tz : Int) (fn : String) (ft : FileType) :
    ∀ l r, goInfo tz fn ft l = .ok r →
      r = (match l.find? (entryMatches fn ft) with
           | none => ((none : Option String), (none : Option Int))
           | some line => (entryIdOpt line, entryCtimeOpt tz line)) := by
  intro l
  induction l with
  | nil =>
    intro r h
    simp only [goInfo, Except.ok.injEq] at h
    simp [← h]
  | cons line rest ih =>
    intro r h
    unfold goInfo at h
    split at h
    · exact absurd h (by simp)
    · rename_i nm h1
      split at h
      · exact absurd h (by simp)
      · rename_i ty h2
        split at h
        · rename_i hc
          have hm : entryMatches fn ft line = true :=
            (entryMatches_iff fn ft line nm ty h1 h2).mpr hc
          split at h
          · exact absurd h (by simp)
          · rename_i tstr h4
            split at h
            · exact absurd h (by simp)
            · rename_i ts h5
              split at h
              · exact absurd h (by simp)
              · rename_i fid h0
                rw [List.find?_cons_of_pos _ hm]
                simp only [Except.ok.injEq] at h
                simp [← h, entryIdOpt, entryCtimeOpt, h0, h4, h5]
        · rename_i hc
          have hm : entryMatches fn ft line = false := by
            rw [← Bool.not_eq_true]
            exact fun hb => hc ((entryMatches_iff fn ft line nm ty h1 h2).mp hb)
          rw [List.find?_cons_of_neg _ (by simp [hm])]
          exact ih r h

/-- C2: whenever `get_drive_file_info` returns, its result is the Google
Drive id and creation time of the first entry matching the filename exactly
and the local file's type (folder for a directory, non-folder for a file),
and `(none, none)` for the empty-directory marker `[""]` or when no entry
matches. -/
theorem claim2_info_first_match (tz : Int) (filename : String)
    (file_type : FileType) (drive_files : List String)
    (r : Option String × Option Int)
    (h : get_drive_file_info tz filename file_type drive_files = .ok r) :
    r = specInfo tz filename file_type drive_files := by
  unfold get_drive_file_info at h
  unfold specInfo
  by_cases he : drive_files = [""]
  · rw [if_pos he] at h
    rw [if_pos he]
    simp only [Except.ok.injEq] at h
    exact h.symm
  · rw [if_neg he] at h
    rw [if_neg he]
    exact goInfo_ok_eq tz filename file_type drive_files r h

/-- C2 witness: the characterization applied to the sample listing. -/
theorem claim2_witness :
    ((some "fid1" : Option String),
     (some (instantOf 0 ⟨2024, 1, 2, 3, 4, 5⟩) : Option Int)) =
      specInfo 0 "a.txt" FileType.FILE dfsW :=
  claim2_info_first_match 0 "a.txt" FileType.FILE dfsW
    (some "fid1", some (instantOf 0 ⟨2024, 1, 2, 3, 4, 5⟩)) rfl

/-- On a well-formed listing the search loop never hits a missing field or a
failing timestamp parse, so it returns. -/
lemma goInfo_wf_ok (tz : Int) (fn : String) (ft : FileType) :
    ∀ l, wellFormedListing fn ft l → ∃ r, goInfo tz fn ft l = .ok r := by
  intro l
  induction l with
  | nil => exact fun _ => ⟨(none, none), rfl⟩
  | cons line rest ih =>
    intro hwf
    have hline := hwf line (by simp)
    have hlen : 5 ≤ (pySplit delim line).length := hline.1
    have hrest : wellFormedListing fn ft rest :=
      fun l' hl' => hwf l' (List.mem_cons_of_mem _ hl')
    cases h1 : (pySplit delim line)[1]? with
    | none =>
      rw [List.getElem?_eq_none_iff] at h1
      omega
    | some nm =>
      cases h2 : (pySplit delim line)[2]? with
      | none =>
        rw [List.getElem?_eq_none_iff] at h2
        omega
      | some ty =>
        unfold goInfo
        rw [h1, h2]
        dsimp only
        by_cases hc : nm = fn ∧ ((ft = FileType.DIR ∧ ty = "folder") ∨
            (ft = FileType.FILE ∧ ty ≠ "folder"))
        · rw [if_pos hc]
          have hm : entryMatches fn ft line = true :=
            (entryMatches_iff fn ft line nm ty h1 h2).mpr hc
          cases h4 : (pySplit delim line)[4]? with
          | none =>
            rw [List.getElem?_eq_none_iff] at h4
            omega
          | some tstr =>
            have hps := hline.2 hm
            rw [h4] at hps
            simp only [Option.some_bind] at hps
            cases h5 : strptimeYmdHms tstr with
            | none => rw [h5] at hps; simp at hps
            | some ts =>
              cases h0 : (pySplit delim line)[0]? with
              | none =>
                rw [List.getElem?_eq_none_iff] at h0
                omega
              | some fid =>
                dsimp only
                rw [h5]
                exact ⟨_, rfl⟩
        · rw [if_neg hc]
          exact ih hrest

/-- C9: `get_drive_file_info` indexes fields 1, 2 and 4 of each split line
unguarded.  Under the precondition that every line of the listing splits into
at least five fields and that field 4 of any matching entry parses as a
timestamp, the function returns; a line with too few fields, or a malformed
timestamp on a matching entry, instead makes it raise. -/
theorem claim9_unguarded_indexing :
    (∀ (tz : Int) (filename : String) (file_type : FileType) (dfs : List String),
      wellFormedListing filename file_type dfs →
      ∃ r, get_drive_file_info tz filename file_type dfs = .ok r) ∧
    get_drive_file_info 0 "a" FileType.FILE ["x"] = .error .raise ∧
    get_drive_file_info 0 "a.txt" FileType.FILE
      ["fid1:DELIMITER?a.txt:DELIMITER?regular:DELIMITER?10:DELIMITER?notadate"] =
      .error .raise := by
  refine ⟨?_, rfl, rfl⟩
  intro tz fn ft dfs hwf
  unfold get_drive_file_info
  by_cases he : dfs = [""]
  · rw [if_pos he]
    exact ⟨(none, none), rfl⟩
  · rw [if_neg he]
    exact goInfo_wf_ok tz fn ft dfs hwf

/-- C9 witness: the sample listing is well formed and the search returns. -/
theorem claim9_witness :
    wellFormedListing "a.txt" FileType.FILE dfsW ∧
    ∃ r, get_drive_file_info 0 "a.txt" FileType.FILE dfsW = .ok r :=
  ⟨by unfold wellFormedListing; decide,
   claim9_unguarded_indexing.1 0 "a.txt" FileType.FILE dfsW
     (by unfold wellFormedListing; decide)⟩

/-- With `make_parents` enabled, the loop of `resolve_drive_dir_id` computes
exactly the specification's walk; the loop state entering each iteration
always has `curr = prev`. -/
lemma resolveLoop_eq_walk (env : Env) (dest : String) :
    ∀ (l : List String) (p : Option String) (files : List String),
      resolveLoop env dest true ⟨p, p, files⟩ l =
        (match resolveSpecWalk env p files l with
         | .error e => .error e
         | .ok (res, ev) => .ok (⟨res.1, res.1, res.2⟩, ev)) := by
  intro l
  induction l with
  | nil => intro p files; rfl
  | cons c rest ih =>
    intro p files
    unfold resolveLoop resolveSpecWalk
    dsimp only
    cases hinfo : get_drive_file_info env.tzOff c FileType.DIR files with
    | error e => rfl
    | ok pr =>
      obtain ⟨cid, t⟩ := pr
      dsimp only
      cases cid with
      | some id =>
        dsimp only
        cases hraw : env.listDirRaw id with
        | none => rfl
        | some raw =>
          dsimp only
          rw [ih (some id) (linesOf raw)]
          cases resolveSpecWalk env (some id) (linesOf raw) rest with
          | error e => rfl
          | ok q => obtain ⟨res, ev⟩ := q; rfl
      | none =>
        dsimp only
        rw [ih (some (pyStrip (env.mkdirRaw p c))) [""]]
        cases resolveSpecWalk env (some (pyStrip (env.mkdirRaw p c))) [""] rest with
        | error e => rfl
        | ok q => obtain ⟨res, ev⟩ := q; rfl

/-- C3: with `make_parents = True` and a non-root destination path,
`resolve_drive_dir_id` equals the specification's component walk started at
the root listing (with the root listing event in front); and a component with
no matching remote directory is created via the mkdir subcommand with the
previously resolved id as parent (`none` for the first component), the walk
returning the new id together with the empty-directory marker as its file
list. -/
theorem claim3_resolve_refines_walk (env : Env) :
    (∀ (dest gp : String), env.execPath "gdrive" = some gp →
      pathComponents dest ≠ [""] →
      resolve_drive_dir_id env dest true =
        (match resolveSpecWalk env none (linesOf env.rootListRaw) (pathComponents dest) with
         | .error e => .error e
         | .ok (res, ev) => .ok (res, Event.listRoot :: ev))) ∧
    (∀ (parent : Option String) (files : List String) (c : String) (t : Option Int),
      get_drive_file_info env.tzOff c FileType.DIR files = .ok (none, t) →
      resolveSpecWalk env parent files [c] =
        .ok ((some (pyStrip (env.mkdirRaw parent c)), [""]),
          [Event.mkdir parent c])) := by
  constructor
  · intro dest gp hgd hne
    unfold resolve_drive_dir_id get_exec_path
    rw [hgd]
    dsimp only
    rw [if_neg hne]
    rw [resolveLoop_eq_walk]
    cases resolveSpecWalk env none (linesOf env.rootListRaw) (pathComponents dest) with
    | error e => rfl
    | ok q => obtain ⟨res, ev⟩ := q; rfl
  · intro parent files c t hinfo
    unfold resolveSpecWalk
    rw [hinfo]
    rfl

/-- C3 witness: the refinement and the creation case at a concrete world. -/
theorem claim3_witness :
    (resolve_drive_dir_id envW "/docs/sub" true =
      (match resolveSpecWalk envW none (linesOf envW.rootListRaw) (pathComponents "/docs/sub") with
       | .error e => .error e
       | .ok (res, ev) => .ok (res, Event.listRoot :: ev))) ∧
    resolveSpecWalk envW (some "rid1") [""] ["sub"] =
      .ok ((some (pyStrip (envW.mkdirRaw (some "rid1") "sub")), [""]),
        [Event.mkdir (some "rid1") "sub"]) :=
  ⟨(claim3_resolve_refines_walk envW).1 "/docs/sub" "/usr/bin/gdrive" rfl (by decide),
   (claim3_resolve_refines_walk envW).2 (some "rid1") [""] "sub" none rfl⟩

/-- A local subdirectory has file type `DIR`. -/
lemma get_file_type_DIR (fs : LocalFS) (src f : String)
    (h : fs.isDir (src ++ "/" ++ f) = true) :
    get_file_type fs src f = FileType.DIR := by
  simp [get_file_type, h]

/-- C4: recursion over subdirectories.  First conjunct: with a destination id,
`back_up_dir` runs the per-file loop with the recursive continuation
`back_up_dir` at decremented fuel, destination the subdirectory id and
`dest_dir_is_id = true`.  Remaining conjuncts, for a local subdirectory:
with `recursive = false` it is skipped, contributing no subprocesses; with
`recursive = true` a matching remote folder's id is reused, and with no
matching remote folder a new one is created with the mkdir subcommand under
the current destination before recursing into it. -/
theorem claim4_subdir_handling (env : Env) (fs : LocalFS) :
    (∀ (fuel : Nat) (src dest : String) (r mp : Bool) (files : List String)
        (raw gp : String),
      env.execPath "gdrive" = some gp →
      fs.listdir src = some files →
      env.listDirRaw dest = some raw →
      back_up_dir env fs (fuel + 1) src dest r mp true =
        withEvent (Event.listDir dest)
          (backUpEach env fs src (some dest) (linesOf raw) r mp
            (fun ns nd => back_up_dir env fs fuel ns nd true mp true) files)) ∧
    (∀ (recur : String → String → Except PErr (List (Option Proc) × List Event))
        (src : String) (dest_id : Option String) (dfs : List String)
        (mp : Bool) (f : String) (rest : List String),
      fs.isDir (src ++ "/" ++ f) = true →
      (∀ rr, get_drive_file_info env.tzOff f FileType.DIR dfs = .ok rr →
        backUpEach env fs src dest_id dfs false mp recur (f :: rest) =
          backUpEach env fs src dest_id dfs false mp recur rest) ∧
      (∀ fid t, get_drive_file_info env.tzOff f FileType.DIR dfs = .ok (some fid, t) →
        backUpEach env fs src dest_id dfs true mp recur (f :: rest) =
          combineRes (recur (src ++ "/" ++ f) fid)
            (backUpEach env fs src dest_id dfs true mp recur rest)) ∧
      (∀ t gp, get_drive_file_info env.tzOff f FileType.DIR dfs = .ok (none, t) →
        env.execPath "gdrive" = some gp →
        backUpEach env fs src dest_id dfs true mp recur (f :: rest) =
          combineRes
            (withEvent (Event.mkdir dest_id f)
              (recur (src ++ "/" ++ f) (pyStrip (env.mkdirRaw dest_id f))))
            (backUpEach env fs src dest_id dfs true mp recur rest))) := by
  constructor
  · intro fuel src dest r mp files raw gp hgd hld hraw
    conv_lhs => rw [back_up_dir]
    unfold get_local_files resolveDest get_drive_file_list get_exec_path
    rw [hld, hgd]
    dsimp only
    rw [hraw]
    simp only [eq_self_iff_true, if_true]
    unfold withEvent
    cases backUpEach env fs src (some dest) (linesOf raw) r mp
        (fun ns nd => back_up_dir env fs fuel ns nd true mp true) files with
    | error e => rfl
    | ok q => obtain ⟨ps, ev⟩ := q; rfl
  · intro recur src dest_id dfs mp f rest hdir
    refine ⟨fun rr hinfo => ?_, fun fid t hinfo => ?_, fun t gp hinfo hgd => ?_⟩
    · obtain ⟨fid, ct⟩ := rr
      conv_lhs => rw [backUpEach]
      rw [get_file_type_DIR fs src f hdir, hinfo]
      dsimp only
      simp
    · conv_lhs => rw [backUpEach]
      rw [get_file_type_DIR fs src f hdir, hinfo]
      dsimp only
      simp
    · conv_lhs => rw [backUpEach]
      rw [get_file_type_DIR fs src f hdir, hinfo]
      dsimp only
      simp [get_exec_path, hgd]

/-- C4 witness: the four behaviours at a concrete world. -/
theorem claim4_witness :
    (back_up_dir envW fsW 2 "src" "d0" false false true =
      withEvent (Event.listDir "d0")
        (backUpEach envW fsW "src" (some "d0") (linesOf "") false false
          (fun ns nd => back_up_dir envW fsW 1 ns nd true false true)
          ["a.txt", "docs"])) ∧
    (backUpEach envW fsW "src" (some "x") [""] false false recurW ["docs"] =
      backUpEach envW fsW "src" (some "x") [""] false false recurW []) ∧
    (backUpEach envW fsW "src" (some "x") (linesOf envW.rootListRaw) true false recurW
        ["docs"] =
      combineRes (recurW "src/docs" "rid1")
        (backUpEach envW fsW "src" (some "x") (linesOf envW.rootListRaw) true false
          recurW [])) ∧
    (backUpEach envW fsW "src" (some "x") [""] true false recurW ["docs"] =
      combineRes
        (withEvent (Event.mkdir (some "x") "docs")
          (recurW "src/docs" (pyStrip (envW.mkdirRaw (some "x") "docs"))))
        (backUpEach envW fsW "src" (some "x") [""] true false recurW [])) :=
  ⟨(claim4_subdir_handling envW fsW).1 1 "src" "d0" false false ["a.txt", "docs"] ""
      "/usr/bin/gdrive" rfl rfl rfl,
   ((claim4_subdir_handling envW fsW).2 recurW "src" (some "x") [""] false "docs" []
      (by decide)).1 (none, none) rfl,
   ((claim4_subdir_handling envW fsW).2 recurW "src" (some "x")
      (linesOf envW.rootListRaw) false "docs" [] (by decide)).2.1 "rid1"
      (some (instantOf 0 ⟨2024, 1, 2, 3, 4, 5⟩)) rfl,
   ((claim4_subdir_handling envW fsW).2 recurW "src" (some "x") [""] false "docs" []
      (by decide)).2.2 none "/usr/bin/gdrive" rfl rfl⟩

/-- `spawnsOf` distributes over trace concatenation. -/
lemma spawnsOf_append (a b : List Event) :
    spawnsOf (a ++ b) = spawnsOf a ++ spawnsOf b := by
  simp [spawnsOf, List.filterMap_append]

/-- Inversion for `combineRes` returning successfully. -/
lemma combineRes_ok (a b : Except PErr (List (Option Proc) × List Event))
    (ps : List (Option Proc)) (ev : List Event)
    (h : combineRes a b = .ok (ps, ev)) :
    ∃ ps1 ev1 ps2 ev2, a = .ok (ps1, ev1) ∧ b = .ok (ps2, ev2) ∧
      ps = ps1 ++ ps2 ∧ ev = ev1 ++ ev2 := by
  cases a with
  | error e => simp [combineRes] at h
  | ok p =>
    obtain ⟨ps1, ev1⟩ := p
    cases b with
    | error e => simp [combineRes] at h
    | ok q =>
      obtain ⟨ps2, ev2⟩ := q
      simp only [combineRes, Except.ok.injEq, Prod.mk.injEq] at h
      exact ⟨ps1, ev1, ps2, ev2, rfl, rfl, h.1.symm, h.2.symm⟩

/-- Inversion for `withEvent` returning successfully. -/
lemma withEvent_ok (e : Event) (a : Except PErr (List (Option Proc) × List Event))
    (ps : List (Option Proc)) (ev : List Event)
    (h : withEvent e a = .ok (ps, ev)) :
    ∃ ev0, a = .ok (ps, ev0) ∧ ev = e :: ev0 := by
  cases a with
  | error err => simp [withEvent] at h
  | ok p =>
    obtain ⟨ps0, ev0⟩ := p
    simp only [withEvent, Except.ok.injEq, Prod.mk.injEq] at h
    exact ⟨ev0, by rw [h.1], h.2.symm⟩

lemma ProcInv_nil : ProcInv [] [] := ⟨rfl, by simp⟩

lemma ProcInv_append (ps1 ps2 : List (Option Proc)) (ev1 ev2 : List Event)
    (h1 : ProcInv ps1 ev1) (h2 : ProcInv ps2 ev2) :
    ProcInv (ps1 ++ ps2) (ev1 ++ ev2) := by
  refine ⟨by rw [spawnsOf_append, h1.1, h2.1], fun x hx => ?_⟩
  rcases List.mem_append.mp hx with hx1 | hx2
  · exact h1.2 x hx1
  · exact h2.2 x hx2

/-- Prepending a non-spawn event preserves the invariant. -/
lemma ProcInv_consEvent (e : Event) (ps : List (Option Proc)) (ev : List Event)
    (he : ∀ p, e ≠ Event.spawn p) (h : ProcInv ps ev) : ProcInv ps (e :: ev) := by
  refine ⟨?_, h.2⟩
  cases e with
  | listRoot => simpa [spawnsOf] using h.1
  | listDir id => simpa [spawnsOf] using h.1
  | mkdir p n => simpa [spawnsOf] using h.1
  | spawn p => exact absurd rfl (he p)

/-- `back_up_file` returns exactly its spawned processes, none of them
`None`. -/
lemma back_up_file_inv (env : Env) (fs : LocalFS) (src f : String)
    (dest_id : Option String) (fid : Option String) (ct : Option Int)
    (ps : List (Option Proc)) (ev : List Event)
    (h : back_up_file env fs src f dest_id fid ct = .ok (ps, ev)) :
    ProcInv ps ev := by
  unfold back_up_file at h
  by_cases hds : f = ".DS_Store"
  · rw [if_pos hds] at h
    simp only [Except.ok.injEq, Prod.mk.injEq] at h
    rw [← h.1, ← h.2]
    exact ProcInv_nil
  · rw [if_neg hds] at h
    dsimp only at h
    split at h
    · exact absurd h (by simp)
    · cases fid with
      | none =>
        dsimp only at h
        simp only [Except.ok.injEq, Prod.mk.injEq] at h
        rw [← h.1, ← h.2]
        refine ⟨rfl, fun x hx => ?_⟩
        simp only [List.mem_singleton] at hx
        exact ⟨_, hx⟩
      | some fid0 =>
        cases ct with
        | none => dsimp only at h; exact absurd h (by simp)
        | some ct0 =>
          dsimp only at h
          split at h
          · simp only [Except.ok.injEq, Prod.mk.injEq] at h
            rw [← h.1, ← h.2]
            refine ⟨rfl, fun x hx => ?_⟩
            simp only [List.mem_cons, List.mem_singleton, List.not_mem_nil, or_false] at hx
            rcases hx with hx | hx
            · exact ⟨_, hx⟩
            · exact ⟨_, hx⟩
          · simp only [Except.ok.injEq, Prod.mk.injEq] at h
            rw [← h.1, ← h.2]
            exact ProcInv_nil

/-- The resolve loop spawns nothing. -/
lemma resolveLoop_spawnfree (env : Env) (dest : String) (mp : Bool) :
    ∀ (l : List String) (st st' : RState) (ev : List Event),
      resolveLoop env dest mp st l = .ok (st', ev) → spawnsOf ev = [] := by
  intro l
  induction l with
  | nil =>
    intro st st' ev h
    simp only [resolveLoop, Except.ok.injEq, Prod.mk.injEq] at h
    rw [← h.2]
    rfl
  | cons c rest ih =>
    intro st st' ev h
    unfold resolveLoop at h
    split at h
    · exact absurd h (by simp)
    · split at h
      · split at h
        · exact absurd h (by simp)
        · split at h
          · exact absurd h (by simp)
          · rename_i st2 ev2 heq2
            simp only [Except.ok.injEq, Prod.mk.injEq] at h
            rw [← h.2]
            simpa [spawnsOf] using ih _ _ _ heq2
      · split at h
        · dsimp only at h
          split at h
          · exact absurd h (by simp)
          · rename_i st2 ev2 heq2
            simp only [Except.ok.injEq, Prod.mk.injEq] at h
            rw [← h.2]
            simpa [spawnsOf] using ih _ _ _ heq2
        · exact absurd h (by simp)

/-- Listing a directory spawns nothing. -/
lemma get_drive_file_list_spawnfree (env : Env) (d : Option String)
    (fls : List String) (ev : List Event)
    (h : get_drive_file_list env d = .ok (fls, ev)) : spawnsOf ev = [] := by
  unfold get_drive_file_list at h
  split at h
  · exact absurd h (by simp)
  · cases d with
    | none =>
      dsimp only at h
      simp only [Except.ok.injEq, Prod.mk.injEq] at h
      rw [← h.2]
      rfl
    | some id =>
      dsimp only at h
      split at h
      · simp only [Except.ok.injEq, Prod.mk.injEq] at h
        rw [← h.2]
        rfl
      · exact absurd h (by simp)

/-- Resolving a destination path spawns nothing. -/
lemma resolve_spawnfree (env : Env) (dest : String) (mp : Bool)
    (res : Option String × List String) (ev : List Event)
    (h : resolve_drive_dir_id env dest mp = .ok (res, ev)) : spawnsOf ev = [] := by
  unfold resolve_drive_dir_id at h
  split at h
  · exact absurd h (by simp)
  · dsimp only at h
    split at h
    · simp only [Except.ok.injEq, Prod.mk.injEq] at h
      rw [← h.2]
      rfl
    · split at h
      · exact absurd h (by simp)
      · rename_i st2 ev2 heq2
        simp only [Except.ok.injEq, Prod.mk.injEq] at h
        rw [← h.2]
        simpa [spawnsOf] using resolveLoop_spawnfree env dest mp _ _ _ _ heq2

/-- The per-file loop preserves the process/trace invariant, given that the
recursive continuation does. -/
lemma backUpEach_inv (env : Env) (fs : LocalFS) (src : String)
    (dest_id : Option String) (dfs : List String) (r mp : Bool)
    (recur : String → String → Except PErr (List (Option Proc) × List Event))
    (hrec : ∀ ns nd ps ev, recur ns nd = .ok (ps, ev) → ProcInv ps ev) :
    ∀ (l : List String) (ps : List (Option Proc)) (ev : List Event),
      backUpEach env fs src dest_id dfs r mp recur l = .ok (ps, ev) →
      ProcInv ps ev := by
  intro l
  induction l with
  | nil =>
    intro ps ev h
    simp only [backUpEach, Except.ok.injEq, Prod.mk.injEq] at h
    rw [← h.1, ← h.2]
    exact ProcInv_nil
  | cons f rest ih =>
    intro ps ev h
    unfold backUpEach at h
    split at h
    · exact absurd h (by simp)
    · split at h
      · split at h
        · obtain ⟨ps1, ev1, ps2, ev2, ha, hb, hps, hev⟩ := combineRes_ok _ _ _ _ h
          rw [hps, hev]
          exact ProcInv_append _ _ _ _ (hrec _ _ _ _ ha) (ih _ _ hb)
        · split at h
          · exact absurd h (by simp)
          · obtain ⟨ps1, ev1, ps2, ev2, ha, hb, hps, hev⟩ := combineRes_ok _ _ _ _ h
            obtain ⟨ev0, ha0, hev1⟩ := withEvent_ok _ _ _ _ ha
            rw [hps, hev, hev1]
            exact ProcInv_append _ _ _ _
              (ProcInv_consEvent _ _ _ (by intro p hq; cases hq) (hrec _ _ _ _ ha0))
              (ih _ _ hb)
      · split at h
        · obtain ⟨ps1, ev1, ps2, ev2, ha, hb, hps, hev⟩ := combineRes_ok _ _ _ _ h
          rw [hps, hev]
          exact ProcInv_append _ _ _ _ (back_up_file_inv _ _ _ _ _ _ _ _ _ ha) (ih _ _ hb)
        · exact ih _ _ h

/-- `back_up_dir` preserves the process/trace invariant at every fuel. -/
lemma back_up_dir_inv (env : Env) (fs : LocalFS) :
    ∀ (fuel : Nat) (s d : String) (r mp i : Bool)
      (ps : List (Option Proc)) (ev : List Event),
      back_up_dir env fs fuel s d r mp i = .ok (ps, ev) → ProcInv ps ev := by
  intro fuel
  induction fuel with
  | zero => intro s d r mp i ps ev h; simp [back_up_dir] at h
  | succ fuel ih =>
    intro s d r mp i ps ev h
    unfold back_up_dir at h
    split at h
    · exact absurd h (by simp)
    · split at h
      · exact absurd h (by simp)
      · rename_i dest_id dest_files ev0 heq
        have hev0 : spawnsOf ev0 = [] := by
          unfold resolveDest at heq
          by_cases hi : i = true
          · rw [hi] at heq
            simp only [eq_self_iff_true, if_true] at heq
            split at heq
            · exact absurd heq (by simp)
            · rename_i fls ev1 heq1
              simp only [Except.ok.injEq, Prod.mk.injEq] at heq
              rw [← heq.2]
              exact get_drive_file_list_spawnfree env (some d) fls ev1 heq1
          · rw [Bool.not_eq_true] at hi
            rw [hi] at heq
            simp only [Bool.false_eq_true, if_false] at heq
            exact resolve_spawnfree env d mp _ _ heq
        split at h
        · exact absurd h (by simp)
        · rename_i procs1 ev1 heq2
          simp only [Except.ok.injEq, Prod.mk.injEq] at h
          rw [← h.1, ← h.2]
          have hstep := backUpEach_inv env fs s dest_id dest_files r mp _
            (fun ns nd ps' ev' hok => ih ns nd true mp true ps' ev' hok) _ _ _ heq2
          refine ⟨?_, fun x hx => hstep.2 x hx⟩
          rw [spawnsOf_append, hev0, hstep.1]
          rfl

/-- A list of processes with no `None` element is waited on successfully. -/
lemma waitLoop_allSome :
    ∀ (ps : List (Option Proc)), (∀ x ∈ ps, ∃ p, x = some p) →
      ∃ qs, waitLoop ps = .ok qs ∧ ps = qs.map some := by
  intro ps
  induction ps with
  | nil => exact fun _ => ⟨[], rfl, rfl⟩
  | cons x rest ih =>
    intro h
    obtain ⟨p, hp⟩ := h x (by simp)
    obtain ⟨qs, hw, hmap⟩ := ih fun y hy => h y (List.mem_cons_of_mem _ hy)
    refine ⟨p :: qs, ?_, by rw [hp, hmap]; rfl⟩
    rw [hp]
    unfold waitLoop
    rw [hw]

/-- C5: whenever `back_up_dir` returns, the returned process list is exactly
the list of all subprocesses spawned during the call (by itself, its
recursive calls and its `back_up_file` calls), in spawn order, and the
top-level script then waits on every one of those processes before exiting. -/
theorem claim5_procs_complete_and_awaited (env : Env) (fs : LocalFS)
    (fuel : Nat) (s d : String) (r mp i : Bool)
    (procs : List (Option Proc)) (ev : List Event)
    (h : back_up_dir env fs fuel s d r mp i = .ok (procs, ev)) :
    spawnsOf ev = procs ∧
    ∃ ps, script env fs fuel s d r mp i = .ok ps ∧ procs = ps.map some := by
  have hinv := back_up_dir_inv env fs fuel s d r mp i procs ev h
  obtain ⟨qs, hw, hmap⟩ := waitLoop_allSome procs hinv.2
  refine ⟨hinv.1, qs, ?_, hmap⟩
  unfold script
  rw [h]
  exact hw

/-- C5 witness: a concrete recursive run. -/
theorem claim5_witness :
    spawnsOf
      [Event.listRoot, Event.listDir "rid1",
       Event.spawn (some (Proc.upload (some "rid1") "src/a.txt")),
       Event.mkdir (some "rid1") "docs", Event.listDir "newid"] =
      [some (Proc.upload (some "rid1") "src/a.txt")] ∧
    ∃ ps, script envW fsW 5 "src" "/docs" true false false = .ok ps ∧
      [some (Proc.upload (some "rid1") "src/a.txt")] = ps.map some :=
  claim5_procs_complete_and_awaited envW fsW 5 "src" "/docs" true false false
    [some (Proc.upload (some "rid1") "src/a.txt")]
    [Event.listRoot, Event.listDir "rid1",
     Event.spawn (some (Proc.upload (some "rid1") "src/a.txt")),
     Event.mkdir (some "rid1") "docs", Event.listDir "newid"] rfl

/-- C8: despite the declared element type `Popen | None`, whenever
`back_up_dir` returns, no element of the returned process list is `None`:
each is a spawned handle, and the script's final wait loop therefore never
calls `.wait()` on `None`. -/
theorem claim8_no_none_proc (env : Env) (fs : LocalFS)
    (fuel : Nat) (s d : String) (r mp i : Bool)
    (procs : List (Option Proc)) (ev : List Event)
    (h : back_up_dir env fs fuel s d r mp i = .ok (procs, ev)) :
    (∀ x ∈ procs, ∃ p, x = some p) ∧
    ∃ ps, waitLoop procs = .ok ps ∧ procs = ps.map some := by
  have hinv := back_up_dir_inv env fs fuel s d r mp i procs ev h
  obtain ⟨qs, hw, hmap⟩ := waitLoop_allSome procs hinv.2
  exact ⟨hinv.2, qs, hw, hmap⟩

/-- C8 witness: a concrete run against a destination id. -/
theorem claim8_witness :
    (∀ x ∈ [some (Proc.upload (some "d0") "src/a.txt")], ∃ p, x = some p) ∧
    ∃ ps, waitLoop [some (Proc.upload (some "d0") "src/a.txt")] = .ok ps ∧
      [some (Proc.upload (some "d0") "src/a.txt")] = ps.map some :=
  claim8_no_none_proc envW fsW 3 "src" "d0" false false true
    [some (Proc.upload (some "d0") "src/a.txt")]
    [Event.listDir "d0",
     Event.spawn (some (Proc.upload (some "d0") "src/a.txt"))] rfl

/-- C6: every error path aborts the whole run with an exiting diagnostic and
nothing continues past it: a nonexistent local source directory, a
destination id the client fails to list, a path component missing remotely
when `make_parents` is off, and a required executable missing from PATH each
produce `sys.exit` with its message, and any error of `back_up_dir` is the
final result of the script. -/
theorem claim6_errors_abort (env : Env) (fs : LocalFS) :
    (∀ (fuel : Nat) (src dest : String) (r mp i : Bool), fs.listdir src = none →
      back_up_dir env fs (fuel + 1) src dest r mp i =
        .error (.exit ("Error: directory " ++ src ++ " does not exist"))) ∧
    (∀ (fuel : Nat) (src dest : String) (r mp : Bool) (files : List String)
        (gp : String),
      env.execPath "gdrive" = some gp → fs.listdir src = some files →
      env.listDirRaw dest = none →
      back_up_dir env fs (fuel + 1) src dest r mp true =
        .error (.exit ("Error: directory with ID " ++ dest ++ " not found"))) ∧
    (∀ (dest : String) (st : RState) (c : String) (rest : List String)
        (t : Option Int),
      get_drive_file_info env.tzOff c FileType.DIR st.files = .ok (none, t) →
      resolveLoop env dest false st (c :: rest) =
        .error (.exit ("Error: destination " ++ dest
          ++ " is not a directory (case-sensitive)\nUse option \"-p\" to recursively create parent dirs"))) ∧
    (∀ name, env.execPath name = none →
      get_exec_path env name = .error (.exit ("Error: executable " ++ name
        ++ " not found.\nPlease verify " ++ name ++ " is installed and on PATH."))) ∧
    (∀ (fuel : Nat) (src dest : String) (r mp i : Bool) (e : PErr),
      back_up_dir env fs fuel src dest r mp i = .error e →
      script env fs fuel src dest r mp i = .error e) := by
  refine ⟨?_, ?_, ?_, ?_, ?_⟩
  · intro fuel src dest r mp i h
    simp [back_up_dir, get_local_files, h]
  · intro fuel src dest r mp files gp hgd hld hraw
    simp [back_up_dir, get_local_files, resolveDest, get_drive_file_list,
      get_exec_path, hgd, hld, hraw]
  · intro dest st c rest t hinfo
    unfold resolveLoop
    rw [hinfo]
    simp
  · intro name h
    simp [get_exec_path, h]
  · intro fuel src dest r mp i e h
    unfold script
    rw [h]

/-- C6 witness: each exiting error path at a concrete world, and error
propagation to the script. -/
theorem claim6_witness :
    back_up_dir envW fsN 1 "nosrc" "/d" false false false =
      .error (.exit "Error: directory nosrc does not exist") ∧
    back_up_dir envL fsW 1 "src" "badid" false false true =
      .error (.exit "Error: directory with ID badid not found") ∧
    resolveLoop envW "/x" false ⟨none, none, [""]⟩ ["x"] =
      .error (.exit ("Error: destination /x is not a directory (case-sensitive)\nUse option \"-p\" to recursively create parent dirs")) ∧
    get_exec_path envX "gdrive" =
      .error (.exit "Error: executable gdrive not found.\nPlease verify gdrive is installed and on PATH.") ∧
    script envW fsN 0 "s" "d" false false false = .error .fuel :=
  ⟨(claim6_errors_abort envW fsN).1 0 "nosrc" "/d" false false false rfl,
   (claim6_errors_abort envL fsW).2.1 0 "src" "badid" false false
     ["a.txt", "docs"] "/usr/bin/gdrive" rfl rfl rfl,
   (claim6_errors_abort envW fsW).2.2.1 "/x" ⟨none, none, [""]⟩ "x" [] none rfl,
   (claim6_errors_abort envX fsW).2.2.2.1 "gdrive" rfl,
   (claim6_errors_abort envW fsN).2.2.2.2 0 "s" "d" false false false PErr.fuel rfl⟩

/-- Unfolding equation of `splitOnGo` at successor fuel. -/
lemma splitOnGo_succ (sep : List Char) (fuel : Nat) (acc rest : List Char) :
    splitOnGo sep (fuel + 1) acc rest =
      (match dropPrefixQ sep rest with
       | some rest' => acc.reverse :: splitOnGo sep fuel [] rest'
       | none =>
         match rest with
         | [] => [acc.reverse]
         | c :: cs => splitOnGo sep fuel (c :: acc) cs) := rfl

/-- Every run of the split worker produces a first field extending the
accumulator. -/
lemma splitOnGo_shape (sep : List Char) :
    ∀ (fuel : Nat) (acc rest : List Char),
      ∃ t tl, splitOnGo sep fuel acc rest = (acc.reverse ++ t) :: tl := by
  intro fuel
  induction fuel with
  | zero => exact fun acc rest => ⟨rest, [], rfl⟩
  | succ fuel ih =>
    intro acc rest
    rw [splitOnGo_succ]
    cases dropPrefixQ sep rest with
    | some rest' => exact ⟨[], splitOnGo sep fuel [] rest', by simp⟩
    | none =>
      cases rest with
      | nil => exact ⟨[], [], by simp⟩
      | cons c cs =>
        obtain ⟨t, tl, ht⟩ := ih (c :: acc) cs
        refine ⟨c :: t, tl, ?_⟩
        dsimp only
        rw [ht]
        simp

/-- A singleton split result is the whole remaining input. -/
lemma splitOnGo_singleton (sep : List Char) :
    ∀ (fuel : Nat) (acc rest x : List Char),
      splitOnGo sep fuel acc rest = [x] → x = acc.reverse ++ rest := by
  intro fuel
  induction fuel with
  | zero =>
    intro acc rest x h
    simp only [splitOnGo, List.cons.injEq, and_true] at h
    exact h.symm
  | succ fuel ih =>
    intro acc rest x h
    rw [splitOnGo_succ] at h
    split at h
    · rename_i rest' heq
      obtain ⟨t, tl, ht⟩ := splitOnGo_shape sep fuel [] rest'
      rw [ht] at h
      simp at h
    · split at h
      · simp only [List.cons.injEq, and_true] at h
        rw [← h]
        simp
      · have hx := ih _ _ _ h
        rw [hx]
        simp

/-- Splitting never yields the empty list. -/
lemma pySplit_ne_nil (sep s : String) : pySplit sep s ≠ [] := by
  unfold pySplit
  obtain ⟨t, tl, ht⟩ := splitOnGo_shape sep.toList (s.toList.length + 1) [] s.toList
  rw [ht]
  simp

/-- A string whose data is a given list is empty iff the list is. -/
lemma mk_eq_empty_iff (L : List Char) : String.mk L = "" ↔ L = [] := by
  constructor
  · intro h
    exact congrArg String.data h
  · intro h
    rw [h]

/-- A split equal to the bare empty-field marker comes from the empty
string. -/
lemma pySplit_eq_marker (sep s : String) (h : pySplit sep s = [""]) : s = "" := by
  unfold pySplit at h
  cases hgo : splitOnGo sep.toList (s.toList.length + 1) [] s.toList with
  | nil => rw [hgo] at h; simp at h
  | cons y ys =>
    rw [hgo] at h
    simp only [List.map_cons, List.cons.injEq] at h
    have hys : ys = [] := List.map_eq_nil_iff.mp h.2
    rw [hys] at hgo
    have hy : y = [] ++ s.toList := splitOnGo_singleton sep.toList _ [] s.toList y hgo
    have hs : String.mk s.toList = "" := by
      rw [← List.nil_append s.toList, ← hy]
      exact h.1
    have hnil : s.toList = [] := (mk_eq_empty_iff s.toList).mp hs
    obtain ⟨data⟩ := s
    rw [show String.mk data = "" ↔ data = [] from mk_eq_empty_iff data]
    exact hnil

/-- The double strip of slashes is empty exactly when the whole list is
slashes. -/
lemma allSlash_iff (l : List Char) :
    ((l.dropWhile fun c => c = '/').reverse.dropWhile fun c => c = '/').reverse = [] ↔
      ∀ c ∈ l, c = '/' := by
  rw [List.reverse_eq_nil_iff, List.dropWhile_eq_nil_iff]
  constructor
  · intro h c hc
    rw [← List.takeWhile_append_dropWhile (fun c => decide (c = '/')) l] at hc
    rcases List.mem_append.mp hc with h1 | h2
    · simpa using List.mem_takeWhile_imp h1
    · simpa using h c (List.mem_reverse.mpr h2)
  · intro h c hc
    have hmem : c ∈ l.dropWhile fun c => c = '/' := List.mem_reverse.mp hc
    have hl : c ∈ l := by
      rw [← List.takeWhile_append_dropWhile (fun c => decide (c = '/')) l]
      exact List.mem_append_right _ hmem
    simpa using h c hl

/-- `strip("/")` yields the empty string iff the input consists only of
slashes. -/
lemma stripSlashes_empty_iff (s : String) :
    stripSlashes s = "" ↔ ∀ c ∈ s.data, c = '/' := by
  unfold stripSlashes
  rw [mk_eq_empty_iff]
  exact allSlash_iff s.toList

/-- The component list is the root marker `[""]` iff the destination consists
only of slashes. -/
lemma pathComponents_root_iff (s : String) :
    pathComponents s = [""] ↔ ∀ c ∈ s.data, c = '/' := by
  constructor
  · intro h
    exact (stripSlashes_empty_iff s).mp (pySplit_eq_marker "/" (stripSlashes s) h)
  · intro h
    unfold pathComponents
    rw [(stripSlashes_empty_iff s).mpr h]
    rfl

/-- After a nonempty walk the loop's current id is always set; an empty walk
returns the state unchanged. -/
lemma resolveLoop_ok_curr (env : Env) (dest : String) (mp : Bool) :
    ∀ (l : List String) (st st' : RState) (ev : List Event),
      resolveLoop env dest mp st l = .ok (st', ev) →
      (l = [] ∧ st' = st) ∨ ∃ id, st'.curr = some id := by
  intro l
  induction l with
  | nil =>
    intro st st' ev h
    simp only [resolveLoop, Except.ok.injEq, Prod.mk.injEq] at h
    exact Or.inl ⟨rfl, h.1.symm⟩
  | cons c rest ih =>
    intro st st' ev h
    unfold resolveLoop at h
    split at h
    · exact absurd h (by simp)
    · split at h
      · split at h
        · exact absurd h (by simp)
        · split at h
          · exact absurd h (by simp)
          · rename_i st2 ev2 heq2
            simp only [Except.ok.injEq, Prod.mk.injEq] at h
            rcases ih _ _ _ heq2 with ⟨_, he⟩ | ⟨id2, hid⟩
            · right
              rw [← h.1, he]
              exact ⟨_, rfl⟩
            · right
              rw [← h.1]
              exact ⟨_, hid⟩
      · split at h
        · dsimp only at h
          split at h
          · exact absurd h (by simp)
          · rename_i st2 ev2 heq2
            simp only [Except.ok.injEq, Prod.mk.injEq] at h
            rcases ih _ _ _ heq2 with ⟨_, he⟩ | ⟨id2, hid⟩
            · right
              rw [← h.1, he]
              exact ⟨_, rfl⟩
            · right
              rw [← h.1]
              exact ⟨_, hid⟩
        · exact absurd h (by simp)

/-- C10: `resolve_drive_dir_id` returns `none` as the directory id exactly
when the destination consists only of slashes (strips to the empty path,
i.e. Google Drive's root), in which case it returns the root listing; and
with a `none` destination id the upload and delete spawns carry no parent,
the listing subcommand lists the root, and the mkdir subcommand of the
subdirectory branch records no parent. -/
theorem claim10_root_dest (env : Env) (fs : LocalFS) :
    (∀ s : String, pathComponents s = [""] ↔ ∀ c ∈ s.data, c = '/') ∧
    (∀ (dest : String) (mp : Bool) (fls : List String) (ev : List Event),
      resolve_drive_dir_id env dest mp = .ok ((none, fls), ev) →
      pathComponents dest = [""]) ∧
    (∀ (dest : String) (mp : Bool) (gp : String),
      env.execPath "gdrive" = some gp → pathComponents dest = [""] →
      resolve_drive_dir_id env dest mp =
        .ok ((none, linesOf env.rootListRaw), [Event.listRoot])) ∧
    (∀ gp, env.execPath "gdrive" = some gp →
      get_drive_file_list env none = .ok (linesOf env.rootListRaw, [Event.listRoot])) ∧
    (∀ (src f : String) (fid : Option String) (ct : Option Int)
        (ps : List (Option Proc)) (ev : List Event),
      back_up_file env fs src f none fid ct = .ok (ps, ev) →
      ∀ p, some p ∈ ps → procParent p = none) ∧
    (∀ (recur : String → String → Except PErr (List (Option Proc) × List Event))
        (src : String) (dfs : List String) (mp : Bool) (f : String)
        (rest : List String) (t : Option Int) (gp : String),
      fs.isDir (src ++ "/" ++ f) = true →
      get_drive_file_info env.tzOff f FileType.DIR dfs = .ok (none, t) →
      env.execPath "gdrive" = some gp →
      backUpEach env fs src none dfs true mp recur (f :: rest) =
        combineRes
          (withEvent (Event.mkdir none f)
            (recur (src ++ "/" ++ f) (pyStrip (env.mkdirRaw none f))))
          (backUpEach env fs src none dfs true mp recur rest)) := by
  refine ⟨pathComponents_root_iff, ?_, ?_, ?_, ?_, ?_⟩
  · intro dest mp fls ev h
    unfold resolve_drive_dir_id at h
    split at h
    · exact absurd h (by simp)
    · dsimp only at h
      split at h
      · assumption
      · split at h
        · exact absurd h (by simp)
        · rename_i st2 ev2 heq2
          simp only [Except.ok.injEq, Prod.mk.injEq] at h
          rcases resolveLoop_ok_curr env dest mp _ _ _ _ heq2 with ⟨hnil, _⟩ | ⟨id, hid⟩
          · exact absurd hnil (pySplit_ne_nil "/" (stripSlashes dest))
          · rw [h.1.1] at hid
            cases hid
  · intro dest mp gp hgd hroot
    unfold resolve_drive_dir_id get_exec_path
    rw [hgd]
    dsimp only
    rw [if_pos hroot]
  · intro gp hgd
    simp [get_drive_file_list, get_exec_path, hgd]
  · intro src f fid ct ps ev h p hp
    unfold back_up_file at h
    by_cases hds : f = ".DS_Store"
    · rw [if_pos hds] at h
      simp only [Except.ok.injEq, Prod.mk.injEq] at h
      rw [← h.1] at hp
      simp at hp
    · rw [if_neg hds] at h
      dsimp only at h
      split at h
      · exact absurd h (by simp)
      · cases fid with
        | none =>
          dsimp only at h
          simp only [Except.ok.injEq, Prod.mk.injEq] at h
          rw [← h.1] at hp
          simp only [List.mem_singleton, Option.some.injEq] at hp
          subst hp
          rfl
        | some fid0 =>
          cases ct with
          | none => dsimp only at h; exact absurd h (by simp)
          | some ct0 =>
            dsimp only at h
            split at h
            · simp only [Except.ok.injEq, Prod.mk.injEq] at h
              rw [← h.1] at hp
              simp only [List.mem_cons, List.mem_singleton, List.not_mem_nil,
                or_false, Option.some.injEq] at hp
              rcases hp with hp | hp
              · subst hp
                rfl
              · subst hp
                rfl
            · simp only [Except.ok.injEq, Prod.mk.injEq] at h
              rw [← h.1] at hp
              simp at hp
  · intro recur src dfs mp f rest t gp hdir hinfo hgd
    conv_lhs => rw [backUpEach]
    rw [get_file_type_DIR fs src f hdir, hinfo]
    dsimp only
    simp [get_exec_path, hgd]

/-- C10 witness: the root behaviours at a concrete world. -/
theorem claim10_witness :
    pathComponents "///" = [""] ∧
    pathComponents "" = [""] ∧
    resolve_drive_dir_id envW "/" false =
      .ok ((none, linesOf envW.rootListRaw), [Event.listRoot]) ∧
    get_drive_file_list envW none = .ok (linesOf envW.rootListRaw, [Event.listRoot]) ∧
    (∀ p, some p ∈ [some (Proc.upload none "src/b.txt")] → procParent p = none) ∧
    backUpEach envW fsW "src" none [""] true false recurW ["docs"] =
      combineRes
        (withEvent (Event.mkdir none "docs")
          (recurW "src/docs" (pyStrip (envW.mkdirRaw none "docs"))))
        (backUpEach envW fsW "src" none [""] true false recurW []) :=
  ⟨((claim10_root_dest envW fsW).1 "///").mpr (by decide),
   (claim10_root_dest envW fsW).2.1 "" false (linesOf envW.rootListRaw)
     [Event.listRoot] rfl,
   (claim10_root_dest envW fsW).2.2.1 "/" false "/usr/bin/gdrive" rfl (by decide),
   (claim10_root_dest envW fsW).2.2.2.1 "/usr/bin/gdrive" rfl,
   (claim10_root_dest envW fsW).2.2.2.2.1 "src" "b.txt" none none
     [some (Proc.upload none "src/b.txt")]
     [Event.spawn (some (Proc.upload none "src/b.txt"))] rfl,
   (claim10_root_dest envW fsW).2.2.2.2.2 recurW "src" [""] false "docs" [] none
     "/usr/bin/gdrive" (by decide) rfl rfl⟩

end GdriveStash
